import Mathlib

/-!
Shallow embedding of the vector-store lifecycle manager of the
Simple-local-knowledge-base-assistant repository:
`src/vectorstores/faiss_store.py` (class `FAISSVectorStore`),
`src/loaders/document_loader.py` (class `DocumentLoaderService`), and
`src/chains/faiss_conversational_chain.py`
(`FAISSConversationalRAGChain.add_documents`).

Modelling conventions:
* A LangChain `Document` is a record of page content and a string-keyed
  metadata association list; Python `metadata.get(k, d)` is `metaGet`.
* The FAISS store state is the insertion-ordered docstore
  (`index_to_docstore_id.values()` is `docstore.map Prod.fst`), the on-disk
  snapshot contents, plus instrumentation counters for `save_local`
  attempts and for invocations of the underlying engine's `delete`.
* Fallible external effects (the embedding+engine insert of one batch, the
  snapshot save) are driven by boolean oracles (`AddEnv.addOk`,
  `AddEnv.saveOk`, the `saveOk` arguments); a Python exception is the
  `.exn` constructor of `PyResult`, and a `try/except` is a branch on it.
  Mutations made before an exception is raised persist, exactly as the
  Python object and file state do.
* The ingestion ledger file (`PROCESSED_DOCS_RECORD`) is the list of its
  lines; an absent file is the empty list.
* Python's `uuid.uuid4()` is a stream `uuids : Nat → String`, consumed at
  successive indices; its freshness is a hypothesis where a claim needs it.
-/

/-- A LangChain `Document`: page content plus metadata. -/
structure Document where
  pageContent : String
  metadata : List (String × String)
deriving DecidableEq

/-- Python `dict.get(key, dflt)` on the metadata association list. -/
def metaGet (md : List (String × String)) (key dflt : String) : String :=
  match md.find? (fun p => p.1 == key) with
  | some p => p.2
  | none => dflt

/-- The exceptions the embedded code can raise. `countMismatch` is the
`ValueError` of `faiss_store.py` line 111; `engineFailure` stands for any
exception out of the underlying FAISS engine (embedding or insert or
delete); `saveFailure` for an exception out of `save_local`. -/
inductive VSError where
  | countMismatch (ndocs nids : Nat)
  | engineFailure
  | saveFailure
deriving DecidableEq

/-- Normal return versus raised exception. -/
inductive PyResult (α : Type) where
  | ok (v : α)
  | exn (e : VSError)
deriving DecidableEq

/-- State of a `FAISSVectorStore`: the in-memory docstore in insertion
order (id, document), the current on-disk snapshot contents, and counters
recording how many times `save_local` was attempted and how many times the
underlying engine's `delete` was invoked. -/
structure FAISSState where
  docstore : List (String × Document)
  savedSnapshot : Option (List (String × Document))
  saveAttempts : Nat
  engineDeleteCalls : Nat
deriving DecidableEq

/-- `DocumentLoaderService._is_document_processed` (document_loader.py
139-153): full scan of the ledger file's lines; an absent file (empty
ledger) yields `false`. -/
def is_document_processed (ledger : List String) (docId : String) : Bool :=
  ledger.contains docId

/-- `DocumentLoaderService._record_processed_document` (document_loader.py
155-163): append one line to the ledger file. -/
def record_processed_document (ledger : List String) (docId : String) : List String :=
  ledger ++ [docId]

/-- `DocumentLoaderService._process_file` (document_loader.py 108-137).
`load` stands for `self.load_document`: it returns the chunk list, or the
exception the `try` at line 126 catches. Note the code records the file in
the ledger (line 131) immediately after chunking succeeds, before the
caller stores anything. -/
def process_file (load : String → Except String (List Document))
    (ledger : List String) (filePath : String) (skipProcessed : Bool) :
    List Document × List String :=
  if skipProcessed && is_document_processed ledger filePath then ([], ledger)
  else
    match load filePath with
    | .ok chunks => (chunks, record_processed_document ledger filePath)
    | .error _ => ([], ledger)

/-- Fuel-driven batching loop. `batchSplitAux fuel l n` mirrors Python's
`for i in range(0, len(l), n): l[i:i+n]`; each step emits `l.take n` and
recurses on `l.drop n`, so fuel `l.length` suffices whenever `1 ≤ n`. -/
def batchSplitAux : Nat → List α → Nat → List (List α)
  | 0, _, _ => []
  | _, [], _ => []
  | fuel + 1, x :: xs, n => ((x :: xs).take n) :: batchSplitAux fuel ((x :: xs).drop n) n

/-- Slicing a list into consecutive batches of size `n`
(`[l[i:i+n] for i in range(0, len(l), n)]`). Python raises on step 0;
the model returns `[]` there and every theorem assumes `0 < n` (all call
sites use the default `batch_size = 10`). -/
def batchSplit (l : List α) (n : Nat) : List (List α) :=
  if n = 0 then [] else batchSplitAux l.length l n

/-- `DocumentLoaderService.batch_process_documents` (document_loader.py
165-182): the same consecutive slicing, on documents. -/
def batch_process_documents (documents : List Document) (batch_size : Nat) :
    List (List Document) :=
  batchSplit documents batch_size

/-- The id-generation loop of `FAISSVectorStore.add_documents`
(faiss_store.py 100-107): one id per document, `f"{source}_{uuid4()}"`
with `source = doc.metadata.get("source", "")`, consuming the uuid stream
at successive indices starting from `k`. -/
def generateIds (uuids : Nat → String) : Nat → List Document → List String
  | _, [] => []
  | k, d :: ds =>
    (metaGet d.metadata "source" "" ++ "_" ++ uuids k) :: generateIds uuids (k + 1) ds

/-- Oracles driving one call of `add_documents`: the uuid stream, whether
the engine insert of batch `i` succeeds, and whether `save_local`
succeeds. -/
structure AddEnv where
  uuids : Nat → String
  addOk : Nat → Bool
  saveOk : Bool

/-- The batch loop of `FAISSVectorStore.add_documents` (faiss_store.py
120-126): `self.vector_store.add_documents(documents=batch, ids=batch_ids)`
appends each batch additively to the docstore; a failing batch raises,
leaving the batches already inserted in memory. (`self.vector_store` is
never `None` here: `__init__` always assigns it, so the
`FAISS.from_documents` branch at line 122 is dead.) -/
def addBatches (addOk : Nat → Bool) :
    FAISSState → List (List Document × List String) → Nat → PyResult Unit × FAISSState
  | st, [], _ => (.ok (), st)
  | st, (batch, bids) :: rest, i =>
    if addOk i then
      addBatches addOk { st with docstore := st.docstore ++ bids.zip batch } rest (i + 1)
    else (.exn .engineFailure, st)

/-- `save_local` (as called at faiss_store.py 130, and via `self.save()` at
line 172): one save attempt; on success the snapshot becomes the current
docstore, on failure an exception is raised with the snapshot unchanged. -/
def saveStore (saveOk : Bool) (st : FAISSState) : PyResult Unit × FAISSState :=
  let st1 := { st with saveAttempts := st.saveAttempts + 1 }
  if saveOk then (.ok (), { st1 with savedSnapshot := some st1.docstore })
  else (.exn .saveFailure, st1)

/-- `FAISSVectorStore.add_documents` (faiss_store.py 83-134): empty input
is a no-op returning `False`; ids are generated when not supplied; a
length mismatch raises `ValueError` before any mutation; otherwise the
chunks and ids are sliced into batches of `batch_size`, inserted batch by
batch, and on success the whole index is saved once and `True` returned.
(The trailing `return False` at line 134 is dead: `self.vector_store` is
always truthy.) -/
def add_documents (env : AddEnv) (st : FAISSState) (documents : List Document)
    (batch_size : Nat) (idsOpt : Option (List String)) : PyResult Bool × FAISSState :=
  if documents.isEmpty then (.ok false, st)
  else
    let ids := match idsOpt with
      | none => generateIds env.uuids 0 documents
      | some l => l
    if documents.length ≠ ids.length then
      (.exn (.countMismatch documents.length ids.length), st)
    else
      let batches := batchSplit documents batch_size
      let idBatches := batchSplit ids batch_size
      match addBatches env.addOk st (batches.zip idBatches) 0 with
      | (.exn e, st1) => (.exn e, st1)
      | (.ok _, st1) =>
        match saveStore env.saveOk st1 with
        | (.exn e, st2) => (.exn e, st2)
        | (.ok _, st2) => (.ok true, st2)

/-- The underlying engine's `FAISS.delete(ids=...)` (langchain): raises if
any requested id is absent, otherwise removes exactly the listed ids from
the docstore, preserving order. Each invocation is counted. -/
def engineDelete (st : FAISSState) (ids : List String) : PyResult Unit × FAISSState :=
  let st1 := { st with engineDeleteCalls := st.engineDeleteCalls + 1 }
  if ids.all (fun i => (st.docstore.map Prod.fst).contains i) then
    (.ok (), { st1 with docstore := st1.docstore.filter (fun pr => !ids.contains pr.1) })
  else (.exn .engineFailure, st1)

/-- `FAISSVectorStore.delete` (faiss_store.py 200-222): empty ids returns
`False` untouched; otherwise `try: engine delete; save()` with every
exception caught and turned into `False`. -/
def delete (saveOk : Bool) (st : FAISSState) (ids : List String) : Bool × FAISSState :=
  if ids.isEmpty then (false, st)
  else
    match engineDelete st ids with
    | (.exn _, st1) => (false, st1)
    | (.ok _, st1) =>
      match saveStore saveOk st1 with
      | (.exn _, st2) => (false, st2)
      | (.ok _, st2) => (true, st2)

/-- Structural character-list prefix test (Python `str.startswith` at the
character level; `String.startsWith` itself is not used because its
implementation is not kernel-reducible). -/
def listIsPrefix : List Char → List Char → Bool
  | [], _ => true
  | _ :: _, [] => false
  | a :: as, b :: bs => a == b && listIsPrefix as bs

/-- Python `s.startswith(pre)`. -/
def pyStartsWith (s pre : String) : Bool := listIsPrefix pre.data s.data

/-- `FAISSVectorStore.delete_by_source` (faiss_store.py 224-265): collects
every stored id starting with `f"{source_path}_"` (outer loop over paths,
inner over `index_to_docstore_id.values()`), a no-op returning `False`
when none match, otherwise the same engine delete plus save with all
exceptions caught. -/
def delete_by_source (saveOk : Bool) (st : FAISSState) (source_paths : List String) :
    Bool × FAISSState :=
  if source_paths.isEmpty then (false, st)
  else
    let all_ids := st.docstore.map Prod.fst
    let ids_to_delete :=
      (source_paths.map (fun p => all_ids.filter (fun i => pyStartsWith i (p ++ "_")))).flatten
    if ids_to_delete.isEmpty then (false, st)
    else
      match engineDelete st ids_to_delete with
      | (.exn _, st1) => (false, st1)
      | (.ok _, st1) =>
        match saveStore saveOk st1 with
        | (.exn _, st2) => (false, st2)
        | (.ok _, st2) => (true, st2)

/-- The predicate "some listed source path is a `_`-separated prefix of
this id", exactly as tested at faiss_store.py line 249. -/
def sourceMatch (source_paths : List String) (id : String) : Bool :=
  source_paths.any (fun p => pyStartsWith id (p ++ "_"))

/-- The fresh store built by `FAISS.from_texts(["初始化文档"], ...)` plus
the immediate `save_local` (faiss_store.py 64-67): one placeholder entry
(its id generated by the engine), snapshotted at once. -/
def freshSeeded (placeholderId : String) : FAISSState :=
  { docstore := [(placeholderId, { pageContent := "初始化文档", metadata := [] })],
    savedSnapshot := some [(placeholderId, { pageContent := "初始化文档", metadata := [] })],
    saveAttempts := 1,
    engineDeleteCalls := 0 }

/-- `FAISSVectorStore._load_or_create_vector_store` (faiss_store.py
40-68). `dirNonEmpty` is `FAISS_INDEX_PATH.exists() and
any(FAISS_INDEX_PATH.iterdir())`; `loadResult` is what `FAISS.load_local`
returns or raises; a raised load is caught and falls through to creating
and snapshotting a fresh placeholder-seeded store. -/
def load_or_create_vector_store (dirNonEmpty : Bool)
    (loadResult : Except String (List (String × Document)))
    (placeholderId : String) : FAISSState :=
  if dirNonEmpty then
    match loadResult with
    | .ok snap =>
      { docstore := snap, savedSnapshot := some snap,
        saveAttempts := 0, engineDeleteCalls := 0 }
    | .error _ => freshSeeded placeholderId
  else freshSeeded placeholderId

/-- `FAISSConversationalRAGChain.add_documents` (faiss_conversational_chain.py
178-200): the uploaded file is saved under the documents directory
(`filePath` here is already that stored path), `_process_file(path,
skip_processed=True)` runs (mutating the ledger file), and when it yielded
chunks they are handed to `FAISSVectorStore.add_documents` with the default
`batch_size=10` and no ids. An exception out of the store call propagates,
but the ledger file and the store's in-memory mutations persist. -/
def chain_add_documents (load : String → Except String (List Document)) (env : AddEnv)
    (ledger : List String) (st : FAISSState) (filePath : String) :
    List String × FAISSState × Option VSError :=
  let pr := process_file load ledger filePath true
  if pr.1.isEmpty then (pr.2, st, none)
  else
    match add_documents env st pr.1 10 none with
    | (.ok _, st1) => (pr.2, st1, none)
    | (.exn e, st1) => (pr.2, st1, some e)

/-! ### List helper lemmas for the batching loop -/

lemma zip_take_take {α β : Type} (n : Nat) :
    ∀ (l1 : List α) (l2 : List β), (l1.take n).zip (l2.take n) = (l1.zip l2).take n := by
  induction n with
  | zero => intro l1 l2; simp
  | succ n ih =>
    intro l1 l2
    cases l1 with
    | nil => simp
    | cons a as =>
      cases l2 with
      | nil => simp
      | cons b bs => simp [ih]

lemma zip_drop_drop {α β : Type} (n : Nat) :
    ∀ (l1 : List α) (l2 : List β), (l1.drop n).zip (l2.drop n) = (l1.zip l2).drop n := by
  induction n with
  | zero => intro l1 l2; simp
  | succ n ih =>
    intro l1 l2
    cases l1 with
    | nil => simp
    | cons a as =>
      cases l2 with
      | nil => simp
      | cons b bs => simp [ih]

lemma batchSplitAux_flatten {α : Type} (n : Nat) (hn : 0 < n) :
    ∀ (fuel : Nat) (l : List α), l.length ≤ fuel → (batchSplitAux fuel l n).flatten = l := by
  intro fuel
  induction fuel with
  | zero =>
    intro l hl
    have hl' : l = [] := List.eq_nil_of_length_eq_zero (Nat.le_zero.mp hl)
    subst hl'
    simp [batchSplitAux]
  | succ fuel ih =>
    intro l hl
    cases l with
    | nil => simp [batchSplitAux]
    | cons x xs =>
      have hdrop : ((x :: xs).drop n).length ≤ fuel := by
        simp only [List.length_drop, List.length_cons] at *
        omega
      simp [batchSplitAux, ih _ hdrop]
  

lemma batchSplitAux_getD {α : Type} (n : Nat) (hn : 0 < n) :
    ∀ (fuel : Nat) (l : List α) (i : Nat), l.length ≤ fuel →
      (batchSplitAux fuel l n).getD i [] = (l.drop (i * n)).take n := by
  intro fuel
  induction fuel with
  | zero =>
    intro l i hl
    have hl' : l = [] := List.eq_nil_of_length_eq_zero (Nat.le_zero.mp hl)
    subst hl'
    simp [batchSplitAux]
  | succ fuel ih =>
    intro l i hl
    cases l with
    | nil => simp [batchSplitAux]
    | cons x xs =>
      cases i with
      | zero => simp [batchSplitAux]
      | succ i =>
        have hdrop : ((x :: xs).drop n).length ≤ fuel := by
          simp only [List.length_drop, List.length_cons] at *
          omega
        have hrw : batchSplitAux (fuel + 1) (x :: xs) n
            = ((x :: xs).take n) :: batchSplitAux fuel ((x :: xs).drop n) n := rfl
        rw [hrw, List.getD_cons_succ, ih _ i hdrop, List.drop_drop]
        have harith : n + i * n = (i + 1) * n := by ring
        rw [harith]

lemma batchSplitAux_length_eq {α β : Type} (n : Nat) :
    ∀ (fuel : Nat) (l1 : List α) (l2 : List β), l1.length = l2.length →
      (batchSplitAux fuel l1 n).length = (batchSplitAux fuel l2 n).length := by
  intro fuel
  induction fuel with
  | zero => intro l1 l2 _; simp [batchSplitAux]
  | succ fuel ih =>
    intro l1 l2 h
    cases l1 with
    | nil =>
      cases l2 with
      | nil => rfl
      | cons y ys => simp at h
    | cons x xs =>
      cases l2 with
      | nil => simp at h
      | cons y ys =>
        have hd : ((x :: xs).drop n).length = ((y :: ys).drop n).length := by
          simp only [List.length_drop, List.length_cons] at *
          omega
        simp only [batchSplitAux, List.length_cons]
        rw [ih _ _ hd]

lemma batchSplitAux_zip_flatten {α β : Type} (n : Nat) (hn : 0 < n) :
    ∀ (fuel : Nat) (l1 : List α) (l2 : List β), l1.length ≤ fuel →
      l1.length = l2.length →
      (((batchSplitAux fuel l1 n).zip (batchSplitAux fuel l2 n)).map
        (fun p => p.2.zip p.1)).flatten = l2.zip l1 := by
  intro fuel
  induction fuel with
  | zero =>
    intro l1 l2 h1 h2
    have h1' : l1 = [] := List.eq_nil_of_length_eq_zero (Nat.le_zero.mp h1)
    subst h1'
    have h2' : l2 = [] := List.eq_nil_of_length_eq_zero h2.symm
    subst h2'
    simp [batchSplitAux]
  | succ fuel ih =>
    intro l1 l2 h1 h2
    cases l1 with
    | nil =>
      have h2' : l2 = [] := List.eq_nil_of_length_eq_zero h2.symm
      subst h2'
      simp [batchSplitAux]
    | cons x xs =>
      cases l2 with
      | nil => simp at h2
      | cons y ys =>
        have hdrop : ((x :: xs).drop n).length ≤ fuel := by
          simp only [List.length_drop, List.length_cons] at *
          omega
        have hlen : ((x :: xs).drop n).length = ((y :: ys).drop n).length := by
          simp only [List.length_drop, List.length_cons] at *
          omega
        simp only [batchSplitAux, List.zip_cons_cons, List.map_cons, List.flatten_cons,
          ih _ _ hdrop hlen]
        rw [zip_take_take, zip_drop_drop, List.take_append_drop]
        simp

lemma batchSplit_flatten {α : Type} (l : List α) (n : Nat) (hn : 0 < n) :
    (batchSplit l n).flatten = l := by
  unfold batchSplit
  rw [if_neg (Nat.pos_iff_ne_zero.mp hn)]
  exact batchSplitAux_flatten n hn l.length l (Nat.le_refl _)

lemma batchSplit_getD {α : Type} (l : List α) (n : Nat) (hn : 0 < n) (i : Nat) :
    (batchSplit l n).getD i [] = (l.drop (i * n)).take n := by
  unfold batchSplit
  rw [if_neg (Nat.pos_iff_ne_zero.mp hn)]
  exact batchSplitAux_getD n hn l.length l i (Nat.le_refl _)

lemma batchSplit_length_eq {α β : Type} (l1 : List α) (l2 : List β) (n : Nat)
    (h : l1.length = l2.length) :
    (batchSplit l1 n).length = (batchSplit l2 n).length := by
  unfold batchSplit
  by_cases h0 : n = 0
  · simp [h0]
  · rw [if_neg h0, if_neg h0, h]
    exact batchSplitAux_length_eq n l2.length l1 l2 h

lemma batchSplit_zip_flatten {α β : Type} (l1 : List α) (l2 : List β) (n : Nat)
    (hn : 0 < n) (h : l1.length = l2.length) :
    (((batchSplit l1 n).zip (batchSplit l2 n)).map (fun p => p.2.zip p.1)).flatten
      = l2.zip l1 := by
  unfold batchSplit
  rw [if_neg (Nat.pos_iff_ne_zero.mp hn), if_neg (Nat.pos_iff_ne_zero.mp hn), h]
  exact batchSplitAux_zip_flatten n hn l2.length l1 l2 (h.le) h

lemma generateIds_length (uuids : Nat → String) :
    ∀ (k : Nat) (ds : List Document), (generateIds uuids k ds).length = ds.length := by
  intro k ds
  induction ds generalizing k with
  | nil => rfl
  | cons d ds ih => simp [generateIds, ih]

/-! ### Lemmas about the insertion batch loop -/

lemma addBatches_ok (addOk : Nat → Bool) :
    ∀ (pairs : List (List Document × List String)) (st : FAISSState) (i : Nat),
      (∀ j, j < pairs.length → addOk (i + j) = true) →
      addBatches addOk st pairs i =
        (.ok (), { st with docstore := st.docstore ++ (pairs.map (fun p => p.2.zip p.1)).flatten }) := by
  intro pairs
  induction pairs with
  | nil => intro st i _; simp [addBatches]
  | cons p rest ih =>
    intro st i h
    obtain ⟨batch, bids⟩ := p
    have h0 : addOk i = true := by
      have := h 0 (by simp)
      simpa using this
    rw [show addBatches addOk st ((batch, bids) :: rest) i
        = (if addOk i then
            addBatches addOk { st with docstore := st.docstore ++ bids.zip batch } rest (i + 1)
          else (.exn .engineFailure, st)) from rfl,
      if_pos h0]
    rw [ih _ (i + 1) (fun j hj => by
      have := h (j + 1) (by simp; omega)
      rwa [show i + (j + 1) = i + 1 + j by omega] at this)]
    simp [List.append_assoc]

lemma addBatches_exn (addOk : Nat → Bool) :
    ∀ (pairs : List (List Document × List String)) (st : FAISSState) (i : Nat),
      (∃ j, j < pairs.length ∧ addOk (i + j) = false) →
      (addBatches addOk st pairs i).1 = .exn .engineFailure := by
  intro pairs
  induction pairs with
  | nil =>
    intro st i h
    obtain ⟨j, hj, _⟩ := h
    simp at hj
  | cons p rest ih =>
    intro st i h
    obtain ⟨batch, bids⟩ := p
    by_cases h0 : addOk i = true
    · rw [show addBatches addOk st ((batch, bids) :: rest) i
          = (if addOk i then
              addBatches addOk { st with docstore := st.docstore ++ bids.zip batch } rest (i + 1)
            else (.exn .engineFailure, st)) from rfl,
        if_pos h0]
      obtain ⟨j, hj, hf⟩ := h
      have hj0 : j ≠ 0 := by
        intro he
        subst he
        rw [Nat.add_zero] at hf
        rw [h0] at hf
        exact Bool.noConfusion hf
      apply ih
      refine ⟨j - 1, by simp at hj; omega, ?_⟩
      rwa [show i + 1 + (j - 1) = i + j by omega]
    · rw [show addBatches addOk st ((batch, bids) :: rest) i
          = (if addOk i then
              addBatches addOk { st with docstore := st.docstore ++ bids.zip batch } rest (i + 1)
            else (.exn .engineFailure, st)) from rfl,
        if_neg h0]

lemma addBatches_frame (addOk : Nat → Bool) :
    ∀ (pairs : List (List Document × List String)) (st : FAISSState) (i : Nat),
      (addBatches addOk st pairs i).2.savedSnapshot = st.savedSnapshot ∧
      (addBatches addOk st pairs i).2.saveAttempts = st.saveAttempts ∧
      (addBatches addOk st pairs i).2.engineDeleteCalls = st.engineDeleteCalls := by
  intro pairs
  induction pairs with
  | nil => intro st i; simp [addBatches]
  | cons p rest ih =>
    intro st i
    obtain ⟨batch, bids⟩ := p
    by_cases h0 : addOk i = true
    · rw [show addBatches addOk st ((batch, bids) :: rest) i
          = (if addOk i then
              addBatches addOk { st with docstore := st.docstore ++ bids.zip batch } rest (i + 1)
            else (.exn .engineFailure, st)) from rfl,
        if_pos h0]
      exact ih _ (i + 1)
    · rw [show addBatches addOk st ((batch, bids) :: rest) i
          = (if addOk i then
              addBatches addOk { st with docstore := st.docstore ++ bids.zip batch } rest (i + 1)
            else (.exn .engineFailure, st)) from rfl,
        if_neg h0]
      exact ⟨rfl, rfl, rfl⟩

/-! ### Claim theorems -/

/-- **C8**: `add_documents` called with an empty chunk sequence returns
`False` without raising (faiss_store.py 95-97) and leaves the state —
in-memory docstore, on-disk snapshot, save-attempt and engine-delete
counters — exactly as it was. (The Ingestion Ledger is not an input of
this method at all, so it cannot be modified by the call.) -/
theorem C8_empty_insert_noop (env : AddEnv) (st : FAISSState) (batch_size : Nat)
    (idsOpt : Option (List String)) :
    add_documents env st [] batch_size idsOpt = (.ok false, st) := rfl

/-- **C10**: `delete` called with an empty ids list returns `False`
(faiss_store.py 210-212) with the state returned untouched: in particular
`engineDeleteCalls` and `saveAttempts` are unchanged, so neither the
underlying engine's delete nor a snapshot write happens. -/
theorem C10_empty_delete_noop (saveOk : Bool) (st : FAISSState) :
    delete saveOk st [] = (false, st) := rfl

/-- **C2**: for a non-empty chunk list and a caller-supplied ids list of a
different length, `add_documents` raises the count-mismatch `ValueError`
(faiss_store.py 110-111) with the store state returned exactly as it was:
nothing added, no snapshot attempt. (The Ingestion Ledger is not an input
of this method, so no ledger record can be made by it.) -/
theorem C2_count_mismatch_fails_before_mutation (env : AddEnv) (st : FAISSState)
    (documents : List Document) (batch_size : Nat) (ids : List String)
    (hne : documents ≠ []) (hmm : documents.length ≠ ids.length) :
    add_documents env st documents batch_size (some ids)
      = (.exn (.countMismatch documents.length ids.length), st) := by
  have hemp : ¬(documents.isEmpty = true) := by
    simp only [List.isEmpty_iff]
    exact hne
  simp only [add_documents]
  rw [if_neg hemp, if_pos hmm]

/-- Witness for C2: supplying 3 ids for 5 chunks fails with the mismatch
error and leaves the store untouched. -/
theorem C2_witness :
    add_documents { uuids := fun _ => "u", addOk := fun _ => true, saveOk := true }
        { docstore := [], savedSnapshot := some [], saveAttempts := 0, engineDeleteCalls := 0 }
        [⟨"a", []⟩, ⟨"b", []⟩, ⟨"c", []⟩, ⟨"d", []⟩, ⟨"e", []⟩] 10 (some ["i1", "i2", "i3"])
      = (.exn (.countMismatch 5 3),
         { docstore := [], savedSnapshot := some [], saveAttempts := 0, engineDeleteCalls := 0 }) :=
  C2_count_mismatch_fails_before_mutation _ _ _ _ _ (by decide) (by decide)

/-- **C3**: for every non-empty chunk sequence (and resolved ids list of
matching length, as the generated one always is), `add_documents` slices
the chunks into consecutive fixed-size batches in order (`getD i` is
exactly `documents[i*batch_size : i*batch_size + batch_size]`, and the
batches flatten back to the input); when every batch insert succeeds the
batches are appended additively after the pre-existing docstore contents
and the snapshot is saved exactly once (`saveAttempts` grows by one) with
the full final index; when some batch's insert raises, the exception
propagates, no snapshot save is attempted (`saveAttempts` unchanged) and
the on-disk snapshot is untouched. (The Ingestion Ledger is not an input
of this method, so no ledger record occurs within the call.) -/
theorem C3_batched_insert_single_snapshot (env : AddEnv) (st : FAISSState)
    (documents : List Document) (batch_size : Nat) (idsOpt : Option (List String))
    (ids : List String)
    (hne : documents ≠ []) (hbs : 0 < batch_size)
    (hids : (match idsOpt with
             | none => generateIds env.uuids 0 documents
             | some l => l) = ids)
    (hlen : ids.length = documents.length) :
    ((batchSplit documents batch_size).flatten = documents
      ∧ ∀ i, (batchSplit documents batch_size).getD i []
          = (documents.drop (i * batch_size)).take batch_size)
    ∧ ((∀ j, j < (batchSplit documents batch_size).length → env.addOk j = true) →
        env.saveOk = true →
        add_documents env st documents batch_size idsOpt =
          (.ok true,
            { docstore := st.docstore ++ ids.zip documents,
              savedSnapshot := some (st.docstore ++ ids.zip documents),
              saveAttempts := st.saveAttempts + 1,
              engineDeleteCalls := st.engineDeleteCalls }))
    ∧ ((∃ j, j < (batchSplit documents batch_size).length ∧ env.addOk j = false) →
        (add_documents env st documents batch_size idsOpt).1 = .exn .engineFailure
        ∧ (add_documents env st documents batch_size idsOpt).2.savedSnapshot = st.savedSnapshot
        ∧ (add_documents env st documents batch_size idsOpt).2.saveAttempts = st.saveAttempts) := by
  have hemp : ¬(documents.isEmpty = true) := by
    simp only [List.isEmpty_iff]
    exact hne
  have hlen' : ¬(documents.length ≠ ids.length) := not_ne_iff.mpr hlen.symm
  have hunf : add_documents env st documents batch_size idsOpt
      = (match addBatches env.addOk st
            ((batchSplit documents batch_size).zip (batchSplit ids batch_size)) 0 with
         | (.exn e, st1) => (.exn e, st1)
         | (.ok _, st1) =>
           match saveStore env.saveOk st1 with
           | (.exn e, st2) => (.exn e, st2)
           | (.ok _, st2) => (.ok true, st2)) := by
    simp only [add_documents]
    rw [hids, if_neg hemp, if_neg hlen']
  have hpl : ((batchSplit documents batch_size).zip (batchSplit ids batch_size)).length
      = (batchSplit documents batch_size).length := by
    rw [List.length_zip, batchSplit_length_eq documents ids batch_size hlen.symm]
    exact Nat.min_self _
  refine ⟨⟨batchSplit_flatten documents batch_size hbs,
           fun i => batchSplit_getD documents batch_size hbs i⟩, ?_, ?_⟩
  · intro hall hsave
    rw [hunf]
    rw [addBatches_ok env.addOk _ st 0 (fun j hj => by
      rw [Nat.zero_add]
      exact hall j (hpl ▸ hj))]
    simp only [saveStore]
    rw [if_pos hsave]
    rw [batchSplit_zip_flatten documents ids batch_size hbs hlen.symm]
  · intro hex
    obtain ⟨j, hj, hf⟩ := hex
    have hexn : (addBatches env.addOk st
        ((batchSplit documents batch_size).zip (batchSplit ids batch_size)) 0).1
        = .exn .engineFailure := by
      apply addBatches_exn
      exact ⟨j, hpl ▸ hj, by rwa [Nat.zero_add]⟩
    have hfr := addBatches_frame env.addOk
      ((batchSplit documents batch_size).zip (batchSplit ids batch_size)) st 0
    rcases heq : addBatches env.addOk st
        ((batchSplit documents batch_size).zip (batchSplit ids batch_size)) 0 with ⟨r, st1⟩
    rw [heq] at hexn hfr
    simp only at hexn
    subst hexn
    rw [hunf, heq]
    exact ⟨rfl, hfr.1, hfr.2.1⟩

/-- Witness for C3: three chunks inserted in batches of two on top of an
existing entry end up appended in order after it, with one snapshot save. -/
theorem C3_witness :
    add_documents { uuids := fun _ => "u", addOk := fun _ => true, saveOk := true }
        { docstore := [("p", ⟨"old", []⟩)], savedSnapshot := some [("p", ⟨"old", []⟩)],
          saveAttempts := 0, engineDeleteCalls := 0 }
        [⟨"a", [("source", "s")]⟩, ⟨"b", [("source", "s")]⟩, ⟨"c", [("source", "s")]⟩]
        2 none
      = (.ok true,
         { docstore := [("p", ⟨"old", []⟩), ("s_u", ⟨"a", [("source", "s")]⟩),
                        ("s_u", ⟨"b", [("source", "s")]⟩), ("s_u", ⟨"c", [("source", "s")]⟩)],
           savedSnapshot := some [("p", ⟨"old", []⟩), ("s_u", ⟨"a", [("source", "s")]⟩),
                        ("s_u", ⟨"b", [("source", "s")]⟩), ("s_u", ⟨"c", [("source", "s")]⟩)],
           saveAttempts := 1, engineDeleteCalls := 0 }) :=
  (C3_batched_insert_single_snapshot _ _ _ _ _
      ["s_u", "s_u", "s_u"] (by decide) (by decide) (by decide) (by decide)).2.1
    (fun _ _ => rfl) rfl

/-- **C4 (counterexample to the claim as stated)**: the claim demands that
when the snapshot save raises, the prior index state *in memory* is left
untouched. The code (faiss_store.py 214-222) runs the engine delete first
and only then `self.save()`; a save failure is caught after the in-memory
mutation, so `delete` returns `false` but the document is already gone from
the in-memory docstore. Concrete input: one stored entry `"a_1"`, delete
`["a_1"]`, failing save. -/
theorem C4_counterexample :
    (delete false
        { docstore := [("a_1", ⟨"t", []⟩)], savedSnapshot := some [("a_1", ⟨"t", []⟩)],
          saveAttempts := 0, engineDeleteCalls := 0 } ["a_1"]).1 = false
    ∧ ¬ ((delete false
        { docstore := [("a_1", ⟨"t", []⟩)], savedSnapshot := some [("a_1", ⟨"t", []⟩)],
          saveAttempts := 0, engineDeleteCalls := 0 } ["a_1"]).2.docstore
        = [("a_1", ⟨"t", []⟩)]) := by
  decide

/-- **C4 (amended)**: for every non-empty ids list, a failure of the
underlying engine's delete or of the subsequent snapshot save makes
`delete` return `false` instead of propagating the exception; when the
*engine delete* raises, the docstore and the snapshot are both untouched;
when only the *save* raises, the on-disk snapshot is untouched but the
in-memory docstore already has the listed ids removed (the
memory/disk-inconsistency window §7 of the spec warns about). -/
theorem C4_soft_failure_amended (saveOk : Bool) (st : FAISSState) (ids : List String)
    (hne : ids ≠ []) :
    ((¬ (ids.all (fun i => (st.docstore.map Prod.fst).contains i) = true)) →
      delete saveOk st ids
        = (false, { st with engineDeleteCalls := st.engineDeleteCalls + 1 }))
    ∧ ((ids.all (fun i => (st.docstore.map Prod.fst).contains i) = true) → saveOk = false →
      delete saveOk st ids
        = (false, { docstore := st.docstore.filter (fun pr => !ids.contains pr.1),
                    savedSnapshot := st.savedSnapshot,
                    saveAttempts := st.saveAttempts + 1,
                    engineDeleteCalls := st.engineDeleteCalls + 1 })) := by
  have hemp : ¬(ids.isEmpty = true) := by
    simp only [List.isEmpty_iff]
    exact hne
  constructor
  · intro h
    simp only [delete, engineDelete]
    rw [if_neg hemp, if_neg h]
  · intro h hs
    subst hs
    simp only [delete, engineDelete, saveStore]
    rw [if_neg hemp, if_pos h]
    simp

/-- Witness for the amended C4: deleting the only stored id with a failing
save returns `false`, leaves the snapshot as it was, and empties the
in-memory docstore. -/
theorem C4_witness :
    delete false
        { docstore := [("a_1", ⟨"t", []⟩)], savedSnapshot := some [("a_1", ⟨"t", []⟩)],
          saveAttempts := 0, engineDeleteCalls := 0 } ["a_1"]
      = (false, { docstore := [], savedSnapshot := some [("a_1", ⟨"t", []⟩)],
                  saveAttempts := 1, engineDeleteCalls := 1 }) :=
  (C4_soft_failure_amended false
      { docstore := [("a_1", ⟨"t", []⟩)], savedSnapshot := some [("a_1", ⟨"t", []⟩)],
        saveAttempts := 0, engineDeleteCalls := 0 } ["a_1"] (by decide)).2 (by decide) rfl

/-- Membership in the id list collected by `delete_by_source`
(faiss_store.py 244-250): exactly the stored ids matching some listed
source path. -/
lemma mem_matched_ids (all_ids paths : List String) (x : String) :
    x ∈ (paths.map (fun p => all_ids.filter (fun i => pyStartsWith i (p ++ "_")))).flatten
      ↔ (x ∈ all_ids ∧ sourceMatch paths x = true) := by
  rw [List.mem_flatten]
  constructor
  · rintro ⟨l, hl, hx⟩
    rcases List.mem_map.mp hl with ⟨p, hp, rfl⟩
    rcases List.mem_filter.mp hx with ⟨hmem, hsw⟩
    refine ⟨hmem, ?_⟩
    simp only [sourceMatch, List.any_eq_true]
    exact ⟨p, hp, hsw⟩
  · rintro ⟨hmem, hmatch⟩
    simp only [sourceMatch, List.any_eq_true] at hmatch
    rcases hmatch with ⟨p, hp, hsw⟩
    exact ⟨all_ids.filter (fun i => pyStartsWith i (p ++ "_")), List.mem_map.mpr ⟨p, hp, rfl⟩,
      List.mem_filter.mpr ⟨hmem, hsw⟩⟩

/-- **C5**: for every non-empty list of source paths, when some stored id
matches (begins with `f"{source_path}_"` for a listed path),
`delete_by_source` removes exactly the matching ids — the surviving
docstore is the original filtered to the non-matching entries, in order —
invokes the engine delete once, persists the snapshot of the result, and
returns `true`; when no stored id matches any listed path it deletes
nothing, touches nothing, and returns `false`. -/
theorem C5_delete_by_source_exact (st : FAISSState) (paths : List String)
    (hne : paths ≠ []) :
    ((∃ pr ∈ st.docstore, sourceMatch paths pr.1 = true) →
      delete_by_source true st paths
        = (true, { docstore := st.docstore.filter (fun pr => !(sourceMatch paths pr.1)),
                   savedSnapshot := some (st.docstore.filter (fun pr => !(sourceMatch paths pr.1))),
                   saveAttempts := st.saveAttempts + 1,
                   engineDeleteCalls := st.engineDeleteCalls + 1 }))
    ∧ ((∀ pr ∈ st.docstore, sourceMatch paths pr.1 = false) →
      delete_by_source true st paths = (false, st)) := by
  have hemp : ¬(paths.isEmpty = true) := by
    simp only [List.isEmpty_iff]
    exact hne
  constructor
  · rintro ⟨pr, hpr, hm⟩
    have hmem1 : pr.1 ∈ st.docstore.map Prod.fst := List.mem_map.mpr ⟨pr, hpr, rfl⟩
    have hmemD : pr.1 ∈ (paths.map (fun p =>
        (st.docstore.map Prod.fst).filter (fun i => pyStartsWith i (p ++ "_")))).flatten :=
      (mem_matched_ids _ _ _).mpr ⟨hmem1, hm⟩
    have hDne : ¬((paths.map (fun p =>
        (st.docstore.map Prod.fst).filter (fun i => pyStartsWith i (p ++ "_")))).flatten.isEmpty
        = true) := by
      simp only [List.isEmpty_iff]
      intro hD
      rw [hD] at hmemD
      exact absurd hmemD (List.not_mem_nil _)
    have hall : ((paths.map (fun p =>
        (st.docstore.map Prod.fst).filter (fun i => pyStartsWith i (p ++ "_")))).flatten.all
        (fun i => (st.docstore.map Prod.fst).contains i)) = true := by
      rw [List.all_eq_true]
      intro x hx
      exact List.elem_eq_true_of_mem ((mem_matched_ids _ _ _).mp hx).1
    have hfc : st.docstore.filter (fun pr => !((paths.map (fun p =>
        (st.docstore.map Prod.fst).filter (fun i => pyStartsWith i (p ++ "_")))).flatten.contains
        pr.1)) = st.docstore.filter (fun pr => !(sourceMatch paths pr.1)) := by
      apply List.filter_congr
      intro q hq
      have hq1 : q.1 ∈ st.docstore.map Prod.fst := List.mem_map.mpr ⟨q, hq, rfl⟩
      by_cases hsm : sourceMatch paths q.1 = true
      · have : ((paths.map (fun p =>
            (st.docstore.map Prod.fst).filter (fun i => pyStartsWith i (p ++ "_")))).flatten.contains
            q.1) = true := List.elem_eq_true_of_mem ((mem_matched_ids _ _ _).mpr ⟨hq1, hsm⟩)
        rw [this, hsm]
      · have hnm : ¬ (q.1 ∈ (paths.map (fun p =>
            (st.docstore.map Prod.fst).filter (fun i => pyStartsWith i (p ++ "_")))).flatten) := by
          intro hmm
          exact hsm ((mem_matched_ids _ _ _).mp hmm).2
        have hc : ((paths.map (fun p =>
            (st.docstore.map Prod.fst).filter (fun i => pyStartsWith i (p ++ "_")))).flatten.contains
            q.1) = false := by
          rw [← Bool.not_eq_true]
          intro hcc
          exact hnm (List.elem_iff.mp hcc)
        rw [hc, Bool.eq_false_iff.mpr hsm]
    simp only [delete_by_source, engineDelete, saveStore]
    rw [if_neg hemp, if_neg hDne, if_pos hall]
    simp only [hfc]
    simp
  · intro hnone
    have hD : (paths.map (fun p =>
        (st.docstore.map Prod.fst).filter (fun i => pyStartsWith i (p ++ "_")))).flatten = [] := by
      rw [List.eq_nil_iff_forall_not_mem]
      intro x hx
      rcases (mem_matched_ids _ _ _).mp hx with ⟨hmem, hmatch⟩
      rcases List.mem_map.mp hmem with ⟨q, hq, rfl⟩
      rw [hnone q hq] at hmatch
      exact Bool.noConfusion hmatch
    simp only [delete_by_source]
    rw [if_neg hemp, hD]
    simp

/-- Witness for C5: with stored ids `"a_1"` and `"b_2"`, deleting by
source `"a"` removes exactly `"a_1"`, saves the snapshot, returns true. -/
theorem C5_witness :
    delete_by_source true
        { docstore := [("a_1", ⟨"ta", []⟩), ("b_2", ⟨"tb", []⟩)],
          savedSnapshot := some [("a_1", ⟨"ta", []⟩), ("b_2", ⟨"tb", []⟩)],
          saveAttempts := 0, engineDeleteCalls := 0 } ["a"]
      = (true, { docstore := [("b_2", ⟨"tb", []⟩)],
                 savedSnapshot := some [("b_2", ⟨"tb", []⟩)],
                 saveAttempts := 1, engineDeleteCalls := 1 }) :=
  (C5_delete_by_source_exact
      { docstore := [("a_1", ⟨"ta", []⟩), ("b_2", ⟨"tb", []⟩)],
        savedSnapshot := some [("a_1", ⟨"ta", []⟩), ("b_2", ⟨"tb", []⟩)],
        saveAttempts := 0, engineDeleteCalls := 0 } ["a"] (by decide)).1
    ⟨("a_1", ⟨"ta", []⟩), by decide, by decide⟩

/-- **C6**: `_load_or_create_vector_store` (faiss_store.py 40-68) returns
the loaded snapshot whenever the snapshot directory exists non-empty and
`FAISS.load_local` succeeds; otherwise — no snapshot, or a load that
raises — it returns a fresh index holding exactly one placeholder entry
and immediately persists it (the snapshot equals the fresh docstore and
one save was attempted). The function is total: a corrupt snapshot never
propagates a failure. -/
theorem C6_load_or_create (dirNonEmpty : Bool)
    (loadResult : Except String (List (String × Document))) (pid : String) :
    ((dirNonEmpty = true → ∀ snap, loadResult = .ok snap →
      load_or_create_vector_store dirNonEmpty loadResult pid
        = { docstore := snap, savedSnapshot := some snap,
            saveAttempts := 0, engineDeleteCalls := 0 }))
    ∧ ((dirNonEmpty = false ∨ ∃ e, loadResult = .error e) →
      (load_or_create_vector_store dirNonEmpty loadResult pid).docstore
          = [(pid, { pageContent := "初始化文档", metadata := [] })]
        ∧ (load_or_create_vector_store dirNonEmpty loadResult pid).savedSnapshot
          = some (load_or_create_vector_store dirNonEmpty loadResult pid).docstore
        ∧ (load_or_create_vector_store dirNonEmpty loadResult pid).saveAttempts = 1) := by
  constructor
  · intro hdir snap hload
    subst hdir hload
    rfl
  · intro h
    rcases h with hdir | ⟨e, hload⟩
    · subst hdir
      exact ⟨rfl, rfl, rfl⟩
    · subst hload
      cases dirNonEmpty <;> exact ⟨rfl, rfl, rfl⟩

/-- Witness for C6: a corrupt snapshot (non-empty directory, failing load)
falls back to the placeholder-seeded fresh index, immediately snapshotted. -/
theorem C6_witness :
    (load_or_create_vector_store true (.error "corrupt") "pid0").docstore
        = [("pid0", { pageContent := "初始化文档", metadata := [] })]
      ∧ (load_or_create_vector_store true (.error "corrupt") "pid0").savedSnapshot
        = some (load_or_create_vector_store true (.error "corrupt") "pid0").docstore
      ∧ (load_or_create_vector_store true (.error "corrupt") "pid0").saveAttempts = 1 :=
  (C6_load_or_create true (.error "corrupt") "pid0").2 (Or.inr ⟨"corrupt", rfl⟩)

/-- **C7**: if a first `_process_file(path, skip_processed=True)` call
returns a non-empty chunk list and storing those chunks succeeds, then a
second identical call finds the path in the ledger and returns the empty
list with the ledger unchanged — a pure skip that never raises, and that
does not read the file: the second call's result is independent of the
loader (`load2` is arbitrary). -/
theorem C7_dedup_idempotent (load load2 : String → Except String (List Document))
    (env : AddEnv) (st : FAISSState) (ledger : List String) (path : String)
    (hne : (process_file load ledger path true).1 ≠ [])
    (_hstore : (add_documents env st (process_file load ledger path true).1 10 none).1
      = .ok true) :
    process_file load2 (process_file load ledger path true).2 path true
      = ([], (process_file load ledger path true).2) := by
  have hrec : (process_file load ledger path true).2 = ledger ++ [path] := by
    unfold process_file at hne ⊢
    by_cases hskip : (true && is_document_processed ledger path) = true
    · rw [if_pos hskip] at hne
      exact absurd rfl hne
    · rw [if_neg hskip] at hne ⊢
      cases hload : load path with
      | ok chunks => rfl
      | error e =>
        rw [hload] at hne
        exact absurd rfl hne
  rw [hrec]
  unfold process_file
  rw [if_pos (by simp [is_document_processed])]

/-- Witness for C7: after a first successful process-and-store of
`"p.txt"`, a second call skips purely — even with a loader that would fail
if the file were read — and leaves the ledger as `["p.txt"]`. -/
theorem C7_witness :
    process_file (fun _ => .error "io error")
        (process_file (fun _ => .ok [⟨"hello", [("source", "p.txt")]⟩]) [] "p.txt" true).2
        "p.txt" true
      = ([], (process_file (fun _ => .ok [⟨"hello", [("source", "p.txt")]⟩]) [] "p.txt" true).2) :=
  C7_dedup_idempotent (fun _ => .ok [⟨"hello", [("source", "p.txt")]⟩]) (fun _ => .error "io error")
    { uuids := fun _ => "u", addOk := fun _ => true, saveOk := true }
    { docstore := [], savedSnapshot := some [], saveAttempts := 0, engineDeleteCalls := 0 }
    [] "p.txt" (by decide) (by decide)

/-! ### String lemmas for id generation -/

/-- Two ids `s ++ "_" ++ u` built with equal-length uuid suffixes can only
be equal when the suffixes are. -/
lemma append_uuid_inj (s1 s2 u1 u2 : String) (h : u1.length = u2.length)
    (he : s1 ++ "_" ++ u1 = s2 ++ "_" ++ u2) : u1 = u2 := by
  have hd : ((s1 ++ "_") ++ u1).data = ((s2 ++ "_") ++ u2).data := by rw [he]
  rw [String.data_append, String.data_append] at hd
  have hl : u1.data.length = u2.data.length := h
  have hu := (List.append_inj' hd hl).2
  rcases u1 with ⟨d1⟩
  rcases u2 with ⟨d2⟩
  exact congrArg String.mk hu

lemma mem_generateIds (uuids : Nat → String) :
    ∀ (k : Nat) (ds : List Document) (x : String), x ∈ generateIds uuids k ds →
      ∃ m, m < ds.length
        ∧ x = metaGet (ds.getD m ⟨"", []⟩).metadata "source" "" ++ "_" ++ uuids (k + m) := by
  intro k ds
  induction ds generalizing k with
  | nil => intro x hx; simp [generateIds] at hx
  | cons d ds ih =>
    intro x hx
    simp only [generateIds, List.mem_cons] at hx
    rcases hx with rfl | hx
    · exact ⟨0, by simp, by simp⟩
    · rcases ih (k + 1) x hx with ⟨m, hm, he⟩
      refine ⟨m + 1, by simpa using hm, ?_⟩
      rw [List.getD_cons_succ, show k + (m + 1) = k + 1 + m from by omega]
      exact he

lemma generateIds_getD (uuids : Nat → String) :
    ∀ (ds : List Document) (k i : Nat), i < ds.length →
      (generateIds uuids k ds).getD i ""
        = metaGet (ds.getD i ⟨"", []⟩).metadata "source" "" ++ "_" ++ uuids (k + i) := by
  intro ds
  induction ds with
  | nil => intro k i hi; simp at hi
  | cons d ds ih =>
    intro k i hi
    cases i with
    | zero => simp [generateIds]
    | succ i =>
      rw [show generateIds uuids k (d :: ds)
          = (metaGet d.metadata "source" "" ++ "_" ++ uuids k) :: generateIds uuids (k + 1) ds
          from rfl,
        List.getD_cons_succ, List.getD_cons_succ,
        ih (k + 1) i (by simpa using hi),
        show k + 1 + i = k + (i + 1) from by omega]

lemma generateIds_nodup (uuids : Nat → String) (L : Nat) :
    ∀ (ds : List Document) (k : Nat),
      (∀ i, i < ds.length → ∀ j, j < ds.length → i ≠ j → uuids (k + i) ≠ uuids (k + j)) →
      (∀ i, i < ds.length → (uuids (k + i)).length = L) →
      (generateIds uuids k ds).Nodup := by
  intro ds
  induction ds with
  | nil => intro k _ _; simp [generateIds]
  | cons d ds ih =>
    intro k hdist hlen
    rw [show generateIds uuids k (d :: ds)
        = (metaGet d.metadata "source" "" ++ "_" ++ uuids k) :: generateIds uuids (k + 1) ds
        from rfl,
      List.nodup_cons]
    constructor
    · intro hmem
      rcases mem_generateIds uuids (k + 1) ds _ hmem with ⟨m, hm, he⟩
      have hulen : (uuids k).length = (uuids (k + 1 + m)).length := by
        have h1 := hlen 0 (by simp)
        have h2 := hlen (m + 1) (by simpa using hm)
        rw [Nat.add_zero] at h1
        rw [show k + (m + 1) = k + 1 + m from by omega] at h2
        rw [h1, h2]
      have hequ := append_uuid_inj _ _ _ _ hulen he
      have hd := hdist 0 (by simp) (m + 1) (by simpa using hm) (by omega)
      rw [Nat.add_zero, show k + (m + 1) = k + 1 + m from by omega] at hd
      exact hd hequ
    · apply ih (k + 1)
      · intro i hi j hj hij
        have := hdist (i + 1) (by simpa using hi) (j + 1) (by simpa using hj) (by omega)
        rwa [show k + (i + 1) = k + 1 + i from by omega,
          show k + (j + 1) = k + 1 + j from by omega] at this
      · intro i hi
        have := hlen (i + 1) (by simpa using hi)
        rwa [show k + (i + 1) = k + 1 + i from by omega] at this

/-- **C9**: when no ids are supplied, `add_documents` generates exactly
one id per chunk (faiss_store.py 100-107), the i-th id being
`{source}_{uuid_i}` with `source` the chunk's source metadata (empty
string when absent) and `uuid_i` the i-th fresh uuid drawn; and provided
the drawn uuids are pairwise distinct and of the uniform uuid string
length (which `uuid.uuid4()` guarantees with overwhelming probability, all
uuid strings being 36 characters), the generated ids are pairwise
distinct. -/
theorem C9_generated_ids_distinct (uuids : Nat → String) (documents : List Document) (L : Nat)
    (hdist : ∀ i, i < documents.length → ∀ j, j < documents.length → i ≠ j →
      uuids i ≠ uuids j)
    (hlen : ∀ i, i < documents.length → (uuids i).length = L) :
    (generateIds uuids 0 documents).length = documents.length
    ∧ (∀ i, i < documents.length →
        (generateIds uuids 0 documents).getD i ""
          = metaGet (documents.getD i ⟨"", []⟩).metadata "source" "" ++ "_" ++ uuids i)
    ∧ (generateIds uuids 0 documents).Nodup := by
  refine ⟨generateIds_length uuids 0 documents, ?_, ?_⟩
  · intro i hi
    rw [generateIds_getD uuids documents 0 i hi, Nat.zero_add]
  · apply generateIds_nodup uuids L documents 0
    · intro i hi j hj hij
      rw [Nat.zero_add, Nat.zero_add]
      exact hdist i hi j hj hij
    · intro i hi
      rw [Nat.zero_add]
      exact hlen i hi

/-- Witness for C9: two chunks — one with source `"a"`, one with no
source metadata — and distinct equal-length uuids yield the two distinct
ids `"a_aaaa"` and `"_bbbb"`. -/
theorem C9_witness :
    (generateIds (fun i => if i = 0 then "aaaa" else "bbbb") 0
        [⟨"t1", [("source", "a")]⟩, ⟨"t2", [("page", "3")]⟩]).length = 2
    ∧ (∀ i, i < ([⟨"t1", [("source", "a")]⟩, ⟨"t2", [("page", "3")]⟩] : List Document).length →
        (generateIds (fun i => if i = 0 then "aaaa" else "bbbb") 0
            [⟨"t1", [("source", "a")]⟩, ⟨"t2", [("page", "3")]⟩]).getD i ""
          = metaGet (([⟨"t1", [("source", "a")]⟩, ⟨"t2", [("page", "3")]⟩] :
              List Document).getD i ⟨"", []⟩).metadata "source" ""
            ++ "_" ++ (fun i => if i = 0 then "aaaa" else "bbbb") i)
    ∧ (generateIds (fun i => if i = 0 then "aaaa" else "bbbb") 0
        [⟨"t1", [("source", "a")]⟩, ⟨"t2", [("page", "3")]⟩]).Nodup :=
  C9_generated_ids_distinct (fun i => if i = 0 then "aaaa" else "bbbb")
    [⟨"t1", [("source", "a")]⟩, ⟨"t2", [("page", "3")]⟩] 4 (by decide) (by decide)

/-- **C1 (the code violates the claim)**: the ingestion path records a
path in the Ingestion Ledger *before* its chunks are stored:
`_process_file` appends to the ledger (document_loader.py 131) right after
chunking, and only afterwards does the chain hand the chunks to
`faiss_store.add_documents` (faiss_conversational_chain.py 190-197).
Concrete run: loading `"/docs/a.txt"` yields one chunk, the vector-index
insertion of the first batch raises, nothing is stored (docstore and
snapshot unchanged) — yet the ledger contains the path, so the claimed
invariant "insertion failure leaves the path absent from the ledger"
fails. -/
theorem C1_ledger_recorded_despite_failed_insert :
    (chain_add_documents (fun _ => .ok [⟨"hello", [("source", "/docs/a.txt")]⟩])
        { uuids := fun _ => "u", addOk := fun _ => false, saveOk := true } []
        { docstore := [], savedSnapshot := some [], saveAttempts := 0, engineDeleteCalls := 0 }
        "/docs/a.txt").2.2 = some .engineFailure
    ∧ (chain_add_documents (fun _ => .ok [⟨"hello", [("source", "/docs/a.txt")]⟩])
        { uuids := fun _ => "u", addOk := fun _ => false, saveOk := true } []
        { docstore := [], savedSnapshot := some [], saveAttempts := 0, engineDeleteCalls := 0 }
        "/docs/a.txt").2.1.docstore = []
    ∧ (chain_add_documents (fun _ => .ok [⟨"hello", [("source", "/docs/a.txt")]⟩])
        { uuids := fun _ => "u", addOk := fun _ => false, saveOk := true } []
        { docstore := [], savedSnapshot := some [], saveAttempts := 0, engineDeleteCalls := 0 }
        "/docs/a.txt").2.1.savedSnapshot = some []
    ∧ "/docs/a.txt" ∈ (chain_add_documents (fun _ => .ok [⟨"hello", [("source", "/docs/a.txt")]⟩])
        { uuids := fun _ => "u", addOk := fun _ => false, saveOk := true } []
        { docstore := [], savedSnapshot := some [], saveAttempts := 0, engineDeleteCalls := 0 }
        "/docs/a.txt").1 := by
  decide
